import Mathlib

/-!
Verification of the inference-and-merge engine of `exif-headliner.py`:
a shallow embedding of `extract_year_and_headline` (the Path Inferencer)
and of the patch computation inside `update_metadata` (the Template
Reconciler), together with theorems settling the specification claims.

Python values are modelled by the inductive type `Val`; Python dicts are
modelled as association lists with first-match lookup (dicts never hold
duplicate keys) and with an overwriting insert `dput` for derived dicts.
Python `re.match` on the three fixed patterns of the source is modelled
by executable matching functions over `List Char`, including the greedy
backtracking behaviour of `[ _-]+(.+)` and the fact that `.` does not
match a newline. A raised `AttributeError` is modelled by `Except`.
-/

set_option maxHeartbeats 1000000

namespace ExifHeadliner

/-- Separator class of the regex character class `[ _-]`. -/
def isSepCh (c : Char) : Bool := c == ' ' || c == '_' || c == '-'

/-- The run matched by a greedy `.+` starting at `l`: `.` matches any
character except a newline, and there is nothing after the group, so the
greedy match simply takes the maximal newline-free prefix. -/
def dotRun (l : List Char) : List Char := l.takeWhile (fun c => !(c == '\n'))

/-- Matching of `[ _-]+(.+)` after at least one separator has already been
consumed: the greedy `+` prefers to consume a further separator, and on
failure backtracks so that `.+` starts at the current character. Returns
the text captured by `(.+)`, or `none` when the whole group fails. -/
def sepGreedy : List Char → Option (List Char)
  | [] => none
  | c :: cs =>
    if isSepCh c then
      match sepGreedy cs with
      | some t => some t
      | none => some (dotRun (c :: cs))
    else
      if c == '\n' then none
      else some (dotRun (c :: cs))

/-- Matching of the full group `[ _-]+(.+)` against `rest`: the first
character must be a separator, after which `sepGreedy` takes over. -/
def sepTextTail : List Char → Option (List Char)
  | [] => none
  | c :: cs => if isSepCh c then sepGreedy cs else none

/-- `re.match(r"(\d{4})", p)`: the segment starts with four digits; the
captured group is those four characters. -/
def matchYear4 (p : List Char) : Option (List Char) :=
  match p with
  | y1 :: y2 :: y3 :: y4 :: _ =>
    if y1.isDigit && y2.isDigit && y3.isDigit && y4.isDigit then
      some [y1, y2, y3, y4]
    else none
  | _ => none

/-- The fixed-width prefix `(\d{4})-\d{2}-\d{2}` of the dated pattern:
returns the captured year and the remainder of the segment. -/
def matchDatePrefix (p : List Char) : Option (List Char × List Char) :=
  match p with
  | y1 :: y2 :: y3 :: y4 :: s1 :: a1 :: a2 :: s2 :: b1 :: b2 :: rest =>
    if y1.isDigit && y2.isDigit && y3.isDigit && y4.isDigit && s1 == '-' &&
       a1.isDigit && a2.isDigit && s2 == '-' && b1.isDigit && b2.isDigit then
      some ([y1, y2, y3, y4], rest)
    else none
  | _ => none

/-- `re.match(r"(\d{4})-\d{2}-\d{2}(?:[ _-]+(.+))?", p)`: the captured
year together with the optional trailing-text capture. The pattern has no
end anchor, so a failing optional group still yields a match. -/
def matchDated (p : List Char) : Option (List Char × Option (List Char)) :=
  match matchDatePrefix p with
  | some (y, rest) => some (y, sepTextTail rest)
  | none => none

/-- `re.match(r"(\d{4})[ _-]+(.+)", p)`: year capture and mandatory
trailing-text capture. -/
def matchYearText (p : List Char) : Option (List Char × List Char) :=
  match p with
  | y1 :: y2 :: y3 :: y4 :: rest =>
    if y1.isDigit && y2.isDigit && y3.isDigit && y4.isDigit then
      match sepTextTail rest with
      | some t => some ([y1, y2, y3, y4], t)
      | none => none
    else none
  | _ => none

/-- `re.match(r"^\d{4}$", c)`: the candidate is exactly four digits. -/
def isExactYear4 (p : List Char) : Bool :=
  match p with
  | [y1, y2, y3, y4] => y1.isDigit && y2.isDigit && y3.isDigit && y4.isDigit
  | _ => false

/-- Python truthiness of an optional string: `None` and `""` are falsy. -/
def pyTruthyOptStr : Option String → Bool
  | none => false
  | some s => !(s == "")

/-- Python `not` of an optional string. -/
def pyFalsyStrOpt (o : Option String) : Bool := !(pyTruthyOptStr o)

/-- `headline = m.group(2) if len(m.groups()) > 1 and m.group(2) else None`:
a falsy capture (absent or empty) is turned into `None`. -/
def truthyCapture : Option (List Char) → Option String
  | some t => if t.isEmpty then none else some (String.mk t)
  | none => none

/-- First pass of `extract_year_and_headline`: a bare leading 4-digit year
overwrites the year (last match wins). -/
def step1 (y : Option String) (p : String) : Option String :=
  match matchYear4 p.data with
  | some g => some (String.mk g)
  | none => y

/-- Second pass: a dated segment overwrites both year and headline; an
absent or falsy trailing capture resets the headline to `None`. -/
def step2 (yh : Option String × Option String) (p : String) :
    Option String × Option String :=
  match matchDated p.data with
  | some (g1, g2) => (some (String.mk g1), truthyCapture g2)
  | none => yh

/-- Third pass: a year-plus-text segment sets year and headline, but only
while the headline is still falsy (`if m and not headline`). -/
def step3 (yh : Option String × Option String) (p : String) :
    Option String × Option String :=
  match matchYearText p.data with
  | some (g1, g2) =>
    if pyFalsyStrOpt yh.2 then (some (String.mk g1), some (String.mk g2)) else yh
  | none => yh

/-- Fallback of `extract_year_and_headline`: if the headline is still
falsy and there are at least two segments, the second-to-last segment is
the candidate headline unless it is exactly a 4-digit year. -/
def applyFallback (parts : List String) (yh : Option String × Option String) :
    Option String × Option String :=
  if pyFalsyStrOpt yh.2 then
    if 1 < parts.length then
      let candidate := parts.getD (parts.length - 2) ""
      if isExactYear4 candidate.data then yh else (yh.1, some candidate)
    else yh
  else yh

/-- The Path Inferencer `extract_year_and_headline`, as three passes over
all segments followed by the fallback. -/
def extract_year_and_headline (parts : List String) :
    Option String × Option String :=
  let year := parts.foldl step1 none
  let yh1 := parts.foldl step2 (year, none)
  let yh2 := parts.foldl step3 yh1
  applyFallback parts yh2

/-! ## The Template Reconciler: the patch computation of `update_metadata` -/

/-- A Python/JSON value as handled by `update_metadata`: `None`, a string,
a non-string scalar (number), a list, or a dict (structured value). -/
inductive Val where
  | vnull
  | vstr (s : String)
  | vnum (n : Int)
  | vlist (items : List Val)
  | vobj (fields : List (String × Val))

/-- A raised Python exception: `existing_struct.get(sub_key)` raises
`AttributeError` when `existing_struct` is not a dict. -/
inductive PyErr where
  | attributeError
  deriving DecidableEq

/-- One step of left-to-right non-overlapping replacement with fuel; with
a non-empty pattern, fuel equal to the list length always suffices. -/
def replaceAux (pat rep : List Char) : Nat → List Char → List Char
  | _, [] => []
  | 0, l => l
  | n + 1, c :: cs =>
    if pat.isPrefixOf (c :: cs) then
      rep ++ replaceAux pat rep n ((c :: cs).drop pat.length)
    else
      c :: replaceAux pat rep n cs

/-- Python `s.replace(pat, rep)` for a non-empty pattern. -/
def pyReplace (s pat rep : String) : String :=
  String.mk (replaceAux pat.data rep.data s.data.length s.data)

/-- Substring test used for Python `pat in s`. -/
def containsAux (pat : List Char) : List Char → Bool
  | [] => pat.isEmpty
  | c :: cs => pat.isPrefixOf (c :: cs) || containsAux pat cs

/-- Python `pat in s` (substring containment). -/
def strContains (s pat : String) : Bool := containsAux pat.data s.data

/-- Python `s.lower()` (ASCII case folding suffices for the keys used). -/
def toLowerStr (s : String) : String := String.mk (s.data.map Char.toLower)

/-- Key normalization of `update_metadata`:
`key.replace("XMP-", "").replace("Iptc4xmpCore:", "").replace("photoshop:", "").lower()`. -/
def normKey (k : String) : String :=
  toLowerStr (pyReplace (pyReplace (pyReplace k "XMP-" "") "Iptc4xmpCore:" "") "photoshop:" "")

/-- Python dict assignment `d[k] = v` on the association-list model: the
value is replaced in place when the key exists, else the pair is appended. -/
def dput (m : List (String × Val)) (k : String) (v : Val) : List (String × Val) :=
  if m.any (fun p => p.1 == k) then
    m.map (fun p => if p.1 == k then (k, v) else p)
  else
    m ++ [(k, v)]

/-- Placeholder cleaning of one current-metadata value: a string value
containing a literal placeholder is rewritten to `None`. -/
def cleanVal : Val → Val
  | .vstr s =>
    if strContains s "{subdir_text}" || strContains s "{year}" then .vnull else .vstr s
  | v => v

/-- The `cleaned_metadata` dict comprehension: pointwise value cleaning. -/
def cleanMeta (m : List (String × Val)) : List (String × Val) :=
  m.map (fun p => (p.1, cleanVal p.2))

/-- The `normalized_metadata` dict comprehension: keys normalized, later
entries overwriting earlier ones on key collision. -/
def buildNormMeta (m : List (String × Val)) : List (String × Val) :=
  m.foldl (fun acc p => dput acc (normKey p.1) p.2) []

/-- Unwrapping of a single-element list current value before the emptiness
check. -/
def unwrapSingle : Option Val → Option Val
  | some (.vlist [x]) => some x
  | v => v

/-- `v is None or v == "" or v == []` applied to an optional dict lookup
(`none` models an absent key, which Python `dict.get` reports as `None`). -/
def isEmptyCurOpt : Option Val → Bool
  | none => true
  | some .vnull => true
  | some (.vstr s) => s == ""
  | some (.vlist l) => l.isEmpty
  | some _ => false

/-- Placeholder substitution on a string: each `replace` fires only when
the corresponding inference result is truthy and the string contains the
placeholder. -/
def substStr (year headline : Option String) (s : String) : String :=
  let s1 :=
    if pyTruthyOptStr year && strContains s "{year}" then
      pyReplace s "{year}" (year.getD "")
    else s
  if pyTruthyOptStr headline && strContains s1 "{subdir_text}" then
    pyReplace s1 "{subdir_text}" (headline.getD "")
  else s1

/-- Placeholder substitution applied to one value: the `isinstance` guards
mean non-strings pass through unchanged. -/
def substVal (year headline : Option String) : Val → Val
  | .vstr s => .vstr (substStr year headline s)
  | v => v

/-- `isinstance(value, str) and "{year}" not in value and "{subdir_text}"
not in value`: the substituted value is a string with no remaining
placeholder. -/
def noPlaceholders : Val → Bool
  | .vstr s => !(strContains s "{year}") && !(strContains s "{subdir_text}")
  | _ => false

/-- Staged value for one sub-field of a structured template field: the
substituted value when it is a placeholder-free string, else the original
template sub-value. -/
def structStagedValue (year headline : Option String) (subValue : Val) : Val :=
  let v := substVal year headline subValue
  if noPlaceholders v then v else subValue

/-- Staged value for a qualifying scalar or list template field: a scalar
string falls back to the original template literal when a placeholder
remains; list items are substituted item-wise, non-strings kept verbatim
and strings with a remaining placeholder dropped; any other value is
staged as-is. -/
def scalarListStaged (year headline : Option String) (dv : Val) : Val :=
  match dv with
  | .vstr s =>
    let v := substVal year headline (.vstr s)
    if noPlaceholders v then v else .vstr s
  | .vlist items =>
    .vlist (items.foldr
      (fun item acc =>
        let v := substVal year headline item
        if noPlaceholders v then v :: acc
        else
          match item with
          | .vstr _ => acc
          | _ => item :: acc)
      [])
  | v => v

/-- Python `existing_struct.get(sub_key)`: succeeds only on a dict, and
raises `AttributeError` on any other receiver. -/
def pyDictGet (v : Val) (k : String) : Except PyErr (Option Val) :=
  match v with
  | .vobj fields => .ok (List.lookup k fields)
  | _ => .error .attributeError

/-- Resolution of `existing_struct`: `metadata.get(key, {})`, and when the
stored value is `None`, the `XMP-`-stripped fallback key — but only for
keys starting with `XMP-`; otherwise the `None` value is kept. -/
def resolveExistingStruct (metadata : List (String × Val)) (key : String) : Val :=
  let e := (List.lookup key metadata).getD (.vobj [])
  match e with
  | .vnull =>
    if ("XMP-".data).isPrefixOf key.data then
      (List.lookup (String.mk (key.data.drop 4)) metadata).getD (.vobj [])
    else .vnull
  | _ => e

/-- The inner loop over the sub-fields of a structured template field,
building `struct_to_update`; the sub-value lookup can raise. -/
def computeStructUpdate (existing : Val) (year headline : Option String) :
    List (String × Val) → List (String × Val) → Except PyErr (List (String × Val))
  | [], acc => .ok acc
  | (sk, sv) :: rest, acc =>
    match pyDictGet existing sk with
    | .error e => .error e
    | .ok csv =>
      let acc' :=
        if isEmptyCurOpt csv then dput acc sk (structStagedValue year headline sv)
        else acc
      computeStructUpdate existing year headline rest acc'

/-- The body of the template loop of `update_metadata` for one
`(key, default_value)` pair, threading the `updates` dict. -/
def processField (metadata normMeta : List (String × Val))
    (year headline : Option String) (updates : List (String × Val))
    (key : String) (dv : Val) : Except PyErr (List (String × Val)) :=
  if key == "SourceFile" then .ok updates
  else
    match dv with
    | .vobj subs =>
      match computeStructUpdate (resolveExistingStruct metadata key) year headline subs [] with
      | .error e => .error e
      | .ok stu => .ok (if stu.isEmpty then updates else dput updates key (.vobj stu))
    | _ =>
      if isEmptyCurOpt (unwrapSingle (List.lookup (normKey key) normMeta)) then
        .ok (dput updates key (scalarListStaged year headline dv))
      else .ok updates

/-- The template loop of `update_metadata`. -/
def updateLoop (metadata normMeta : List (String × Val))
    (year headline : Option String) :
    List (String × Val) → List (String × Val) → Except PyErr (List (String × Val))
  | [], acc => .ok acc
  | (k, dv) :: rest, acc =>
    match processField metadata normMeta year headline acc k dv with
    | .error e => .error e
    | .ok acc' => updateLoop metadata normMeta year headline rest acc'

/-- The pure patch computation of `update_metadata`: placeholder cleaning,
normalized-key lookup table, then the template loop starting from an
empty `updates` dict. -/
def compute_updates (tmpl metadata0 : List (String × Val))
    (year headline : Option String) : Except PyErr (List (String × Val)) :=
  let metadata := cleanMeta metadata0
  let normMeta := buildNormMeta metadata
  updateLoop metadata normMeta year headline tmpl []

/-! ## Helper lemmas -/

/-- A value is a dict. -/
def isObjVal : Val → Bool
  | .vobj _ => true
  | _ => false

lemma sep_ne_newline {c : Char} (h : isSepCh c = true) : (c == '\n') = false := by
  simp only [isSepCh, Bool.or_eq_true] at h
  rcases h with (h | h) | h <;>
    · have := eq_of_beq h
      subst this
      decide

lemma digit_ne_newline {c : Char} (h : c.isDigit = true) : (c == '\n') = false := by
  cases hb : c == '\n' with
  | false => rfl
  | true =>
    have := eq_of_beq hb
    subst this
    exact absurd h (by decide)

lemma digit_not_sep {c : Char} (h : c.isDigit = true) : isSepCh c = false := by
  cases hb : isSepCh c with
  | false => rfl
  | true =>
    exfalso
    simp only [isSepCh, Bool.or_eq_true] at hb
    rcases hb with (hb | hb) | hb <;>
      · have := eq_of_beq hb
        subst this
        exact absurd h (by decide)

lemma dotRun_cons_ne {c : Char} (cs : List Char) (h : (c == '\n') = false) :
    dotRun (c :: cs) = c :: dotRun cs := by
  simp [dotRun, List.takeWhile_cons, h]

/-- The `.+` capture of `sepGreedy` is never the empty string. -/
lemma sepGreedy_ne_nil : ∀ {l t : List Char}, sepGreedy l = some t → t.isEmpty = false := by
  intro l
  induction l with
  | nil => intro t h; simp [sepGreedy] at h
  | cons c cs ih =>
    intro t h
    unfold sepGreedy at h
    by_cases hs : isSepCh c = true
    · rw [if_pos hs] at h
      cases hm : sepGreedy cs with
      | some u =>
        rw [hm] at h
        injection h with h
        subst h
        exact ih hm
      | none =>
        rw [hm] at h
        injection h with h
        subst h
        rw [dotRun_cons_ne cs (sep_ne_newline hs)]
        rfl
    · rw [if_neg hs] at h
      by_cases hn : (c == '\n') = true
      · rw [if_pos hn] at h; cases h
      · rw [if_neg hn] at h
        injection h with h
        subst h
        rw [dotRun_cons_ne cs (Bool.eq_false_iff.mpr hn)]
        rfl

/-- The optional trailing-text capture of the `[ _-]+(.+)` group is never
the empty string. -/
lemma sepTextTail_ne_nil {l t : List Char} (h : sepTextTail l = some t) :
    t.isEmpty = false := by
  cases l with
  | nil => simp [sepTextTail] at h
  | cons c cs =>
    simp only [sepTextTail] at h
    by_cases hs : isSepCh c = true
    · rw [if_pos hs] at h
      exact sepGreedy_ne_nil h
    · rw [if_neg hs] at h
      cases h

/-- A trailing-text capture of the dated pattern is never empty. -/
lemma matchDated_text_ne_nil {l g1 g2 : List Char}
    (h : matchDated l = some (g1, some g2)) : g2.isEmpty = false := by
  unfold matchDated at h
  cases hp : matchDatePrefix l with
  | none => rw [hp] at h; cases h
  | some yr =>
    rw [hp] at h
    injection h with h
    have h2 : sepTextTail yr.2 = some g2 := congrArg Prod.snd h
    exact sepTextTail_ne_nil h2

lemma truthyCapture_of_ne_nil {t : List Char} (h : t.isEmpty = false) :
    truthyCapture (some t) = some (String.mk t) := by
  simp [truthyCapture, h]

lemma mk_cons_ne_empty {c : Char} {cs : List Char} : String.mk (c :: cs) ≠ "" := by
  intro h
  have := congrArg String.data h
  simp at this

lemma pyFalsy_some_mk_cons {c : Char} {cs : List Char} :
    pyFalsyStrOpt (some (String.mk (c :: cs))) = false := by
  simp [pyFalsyStrOpt, pyTruthyOptStr, mk_cons_ne_empty]

/-- Segments with no dated match leave the second pass's accumulator
unchanged. -/
lemma foldl_step2_of_no_dated {l : List String}
    (hl : ∀ s ∈ l, matchDated s.data = none) :
    ∀ x : Option String × Option String, l.foldl step2 x = x := by
  induction l with
  | nil => intro x; rfl
  | cons a as ih =>
    intro x
    rw [List.foldl_cons]
    have ha : matchDated a.data = none := hl a (by simp)
    have hstep : step2 x a = x := by simp [step2, ha]
    rw [hstep]
    exact ih (fun s hs => hl s (by simp [hs])) x

/-- If every dated match in `l` has a falsy trailing capture, the second
pass keeps the headline reset to `none`. -/
lemma foldl_step2_snd_none {l : List String}
    (hl : ∀ s ∈ l, ∀ r, matchDated s.data = some r → r.2 = none) :
    ∀ x : Option String × Option String, x.2 = none → (l.foldl step2 x).2 = none := by
  induction l with
  | nil => intro x hx; simpa using hx
  | cons a as ih =>
    intro x hx
    rw [List.foldl_cons]
    apply ih (fun s hs r hr => hl s (by simp [hs]) r hr)
    cases hm : matchDated a.data with
    | none => simp [step2, hm, hx]
    | some r =>
      obtain ⟨g1, g2⟩ := r
      have h2 : g2 = none := hl a (by simp) (g1, g2) hm
      subst h2
      simp [step2, hm, truthyCapture]

/-- Once the headline is truthy, the third pass never changes anything. -/
lemma foldl_step3_of_truthy {x : Option String × Option String}
    (hx : pyFalsyStrOpt x.2 = false) (l : List String) : l.foldl step3 x = x := by
  induction l with
  | nil => rfl
  | cons a as ih =>
    rw [List.foldl_cons]
    have hstep : step3 x a = x := by
      unfold step3
      cases matchYearText a.data with
      | none => rfl
      | some g => simp [hx]
    rw [hstep]
    exact ih

/-- Segments with no year-plus-text match leave the third pass's
accumulator unchanged. -/
lemma foldl_step3_of_no_yt {l : List String}
    (hl : ∀ s ∈ l, matchYearText s.data = none) :
    ∀ x : Option String × Option String, l.foldl step3 x = x := by
  induction l with
  | nil => intro x; rfl
  | cons a as ih =>
    intro x
    rw [List.foldl_cons]
    have ha : matchYearText a.data = none := hl a (by simp)
    have hstep : step3 x a = x := by simp [step3, ha]
    rw [hstep]
    exact ih (fun s hs => hl s (by simp [hs])) x

/-- The fallback does nothing when the headline is truthy. -/
lemma applyFallback_of_truthy {parts : List String}
    {yh : Option String × Option String} (h : pyFalsyStrOpt yh.2 = false) :
    applyFallback parts yh = yh := by
  simp [applyFallback, h]

/-! ## Claims about the Path Inferencer -/

/-- Claim C2, counterexample: the sequence `["2006-01-01 Vail", "2007-03-04"]`
contains the dated-form segment `2006-01-01 Vail` (year `2006`, trailing text
`Vail`), yet the Inferencer does not return that segment's year/text pair:
the later date-only segment resets the headline and the year-plus-text pass
then re-derives it from the dated segment itself, yielding `01-01 Vail`. -/
theorem C2_counterexample :
    extract_year_and_headline ["2006-01-01 Vail", "2007-03-04"]
        = (some "2006", some "01-01 Vail") ∧
      ¬ (extract_year_and_headline ["2006-01-01 Vail", "2007-03-04"]
        = (some "2006", some "Vail")) :=
  ⟨by decide, by decide⟩

/-- Claim C2 (amended): for every sequence in which some segment matches the
dated pattern with a (necessarily non-empty) trailing-text capture and no
later segment matches the dated pattern at all, the Inferencer returns that
segment's captured year and trailing text, regardless of the earlier
segments' content. -/
theorem C2_last_dated_text_wins (pre post : List String) (seg : String)
    (g1 g2 : List Char) (hseg : matchDated seg.data = some (g1, some g2))
    (hpost : ∀ s ∈ post, matchDated s.data = none) :
    extract_year_and_headline (pre ++ seg :: post)
      = (some (String.mk g1), some (String.mk g2)) := by
  have hne : g2.isEmpty = false := matchDated_text_ne_nil hseg
  obtain ⟨c, cs, rfl⟩ : ∃ c cs, g2 = c :: cs := by
    cases g2 with
    | nil => simp at hne
    | cons c cs => exact ⟨c, cs, rfl⟩
  have hrfl : extract_year_and_headline (pre ++ seg :: post)
      = applyFallback (pre ++ seg :: post)
          ((pre ++ seg :: post).foldl step3
            ((pre ++ seg :: post).foldl step2
              ((pre ++ seg :: post).foldl step1 none, none))) := rfl
  rw [hrfl]
  have h2 : (pre ++ seg :: post).foldl step2
        ((pre ++ seg :: post).foldl step1 none, none)
      = (some (String.mk g1), some (String.mk (c :: cs))) := by
    rw [List.foldl_append, List.foldl_cons]
    have hstep : step2 (pre.foldl step2
          ((pre ++ seg :: post).foldl step1 none, none)) seg
        = (some (String.mk g1), some (String.mk (c :: cs))) := by
      simp [step2, hseg, truthyCapture_of_ne_nil hne]
    rw [hstep]
    exact foldl_step2_of_no_dated hpost _
  rw [h2, foldl_step3_of_truthy pyFalsy_some_mk_cons,
    applyFallback_of_truthy pyFalsy_some_mk_cons]

/-- Claim C2, witness for the amended theorem at the spec's own example:
`["2006-03-12 Grand Canyon", "img.jpg"]`. -/
theorem C2_witness :
    extract_year_and_headline ["2006-03-12 Grand Canyon", "img.jpg"]
      = (some "2006", some "Grand Canyon") := by
  have h := C2_last_dated_text_wins [] ["img.jpg"] "2006-03-12 Grand Canyon"
    "2006".data "Grand Canyon".data (by decide)
    (by
      intro s hs
      simp only [List.mem_singleton] at hs
      subst hs
      decide)
  simpa using h

/-- Claim C4, counterexample: for the two-segment input
`["2010", "Print Quality"]` the second-to-last segment is `"2010"`, which is
exactly a 4-digit year, so the fallback leaves the headline unset; the
claimed result `("2010", "Print Quality")` does not hold. -/
theorem C4_counterexample :
    extract_year_and_headline ["2010", "Print Quality"] = (some "2010", none) ∧
      ¬ (extract_year_and_headline ["2010", "Print Quality"]
        = (some "2010", some "Print Quality")) :=
  ⟨by decide, by decide⟩

/-- Claim C4 (amended): the fallback picks `Print Quality` when it is the
second-to-last segment, as in `["2010", "Print Quality", "img.jpg"]`, which
yields year `2010` and headline `Print Quality`; on
`["2010", "Print Quality"]` itself the candidate `"2010"` is purely a
4-digit year and the headline stays unset. -/
theorem C4_fallback_with_filename :
    extract_year_and_headline ["2010", "Print Quality", "img.jpg"]
      = (some "2010", some "Print Quality") := by decide

/-- Claim C9, counterexample: `["2005 Vail", "2006-01-01", "img.jpg"]`
contains the date-only segment `2006-01-01`, and no other segment sets a
headline in the dated pass; yet the year-plus-text pass fires first on the
earlier segment `2005 Vail`, so the result is `("2005", "Vail")`, not
`("2006", "01-01")`. -/
theorem C9_counterexample :
    extract_year_and_headline ["2005 Vail", "2006-01-01", "img.jpg"]
        = (some "2005", some "Vail") ∧
      ¬ (extract_year_and_headline ["2005 Vail", "2006-01-01", "img.jpg"]
        = (some "2006", some "01-01")) :=
  ⟨by decide, by decide⟩

/-- Claim C9 (amended): for every sequence containing a date-only segment
`YYYY-MM-DD`, where no earlier segment matches the year-plus-text pattern
and every dated match among the later segments has a falsy trailing
capture, the dated pass leaves the headline unset and the year-plus-text
pass then matches the date-only segment itself, returning its year and the
`MM-DD` remainder — e.g. `["2006-01-01", "img.jpg"] ↦ ("2006", "01-01")`. -/
theorem C9_date_only_headline (pre post : List String)
    (y1 y2 y3 y4 a1 a2 b1 b2 : Char)
    (hdig : (y1.isDigit && y2.isDigit && y3.isDigit && y4.isDigit &&
             a1.isDigit && a2.isDigit && b1.isDigit && b2.isDigit) = true)
    (hpre : ∀ s ∈ pre, matchYearText s.data = none)
    (hpost : ∀ s ∈ post, ∀ r, matchDated s.data = some r → r.2 = none) :
    extract_year_and_headline
        (pre ++ String.mk [y1, y2, y3, y4, '-', a1, a2, '-', b1, b2] :: post)
      = (some (String.mk [y1, y2, y3, y4]),
         some (String.mk [a1, a2, '-', b1, b2])) := by
  simp only [Bool.and_eq_true] at hdig
  obtain ⟨⟨⟨⟨⟨⟨⟨hy1, hy2⟩, hy3⟩, hy4⟩, ha1⟩, ha2⟩, hb1⟩, hb2⟩ := hdig
  have hmd : matchDated (String.mk [y1, y2, y3, y4, '-', a1, a2, '-', b1, b2]).data
      = some ([y1, y2, y3, y4], none) := by
    simp [matchDated, matchDatePrefix, hy1, hy2, hy3, hy4, ha1, ha2, hb1, hb2,
      sepTextTail]
  have hdr : dotRun [a1, a2, '-', b1, b2] = [a1, a2, '-', b1, b2] := by
    rw [dotRun_cons_ne _ (digit_ne_newline ha1),
      dotRun_cons_ne _ (digit_ne_newline ha2), dotRun_cons_ne _ (by decide),
      dotRun_cons_ne _ (digit_ne_newline hb1),
      dotRun_cons_ne _ (digit_ne_newline hb2)]
    rfl
  have hgreedy : sepGreedy [a1, a2, '-', b1, b2] = some [a1, a2, '-', b1, b2] := by
    unfold sepGreedy
    rw [digit_not_sep ha1]
    simp [digit_ne_newline ha1, hdr]
  have hyt : matchYearText (String.mk [y1, y2, y3, y4, '-', a1, a2, '-', b1, b2]).data
      = some ([y1, y2, y3, y4], [a1, a2, '-', b1, b2]) := by
    have hsd : isSepCh '-' = true := by decide
    simp [matchYearText, hy1, hy2, hy3, hy4, sepTextTail, hsd, hgreedy]
  have hrfl : extract_year_and_headline
        (pre ++ String.mk [y1, y2, y3, y4, '-', a1, a2, '-', b1, b2] :: post)
      = applyFallback (pre ++ String.mk [y1, y2, y3, y4, '-', a1, a2, '-', b1, b2] :: post)
          ((pre ++ String.mk [y1, y2, y3, y4, '-', a1, a2, '-', b1, b2] :: post).foldl step3
            ((pre ++ String.mk [y1, y2, y3, y4, '-', a1, a2, '-', b1, b2] :: post).foldl step2
              ((pre ++ String.mk [y1, y2, y3, y4, '-', a1, a2, '-', b1, b2] :: post).foldl
                step1 none, none))) := rfl
  rw [hrfl]
  rw [show (pre ++ String.mk [y1, y2, y3, y4, '-', a1, a2, '-', b1, b2] :: post).foldl step2
        ((pre ++ String.mk [y1, y2, y3, y4, '-', a1, a2, '-', b1, b2] :: post).foldl
          step1 none, none)
      = post.foldl step2 (step2 (pre.foldl step2
          ((pre ++ String.mk [y1, y2, y3, y4, '-', a1, a2, '-', b1, b2] :: post).foldl
            step1 none, none))
          (String.mk [y1, y2, y3, y4, '-', a1, a2, '-', b1, b2])) from by
    rw [List.foldl_append, List.foldl_cons]]
  generalize hw : post.foldl step2 (step2 (pre.foldl step2
      ((pre ++ String.mk [y1, y2, y3, y4, '-', a1, a2, '-', b1, b2] :: post).foldl
        step1 none, none))
      (String.mk [y1, y2, y3, y4, '-', a1, a2, '-', b1, b2])) = w
  have hw2 : w.2 = none := by
    rw [← hw]
    apply foldl_step2_snd_none hpost
    simp [step2, hmd, truthyCapture]
  rw [List.foldl_append, foldl_step3_of_no_yt hpre, List.foldl_cons]
  have hstep : step3 w (String.mk [y1, y2, y3, y4, '-', a1, a2, '-', b1, b2])
      = (some (String.mk [y1, y2, y3, y4]), some (String.mk [a1, a2, '-', b1, b2])) := by
    unfold step3
    rw [hyt]
    have hfal : pyFalsyStrOpt w.2 = true := by rw [hw2]; rfl
    simp [hfal]
  rw [hstep, foldl_step3_of_truthy pyFalsy_some_mk_cons,
    applyFallback_of_truthy pyFalsy_some_mk_cons]

/-- Claim C9, witness for the amended theorem at the code's own example:
`["2006-01-01", "img.jpg"]` yields year `2006` and headline `01-01`. -/
theorem C9_witness :
    extract_year_and_headline ["2006-01-01", "img.jpg"]
      = (some "2006", some "01-01") := by
  have h := C9_date_only_headline [] ["img.jpg"] '2' '0' '0' '6' '0' '1' '0' '1'
    (by decide)
    (by intro s hs; simp at hs)
    (by
      intro s hs r hr
      simp only [List.mem_singleton] at hs
      subst hs
      rw [show matchDated "img.jpg".data = none from by decide] at hr
      cases hr)
  simpa using h

/-! ## Helper lemmas for the Template Reconciler -/

lemma lookup_map_val (f : Val → Val) :
    ∀ (m : List (String × Val)) (k : String),
      List.lookup k (m.map (fun p => (p.1, f p.2))) = (List.lookup k m).map f := by
  intro m
  induction m with
  | nil => intro k; rfl
  | cons p rest ih =>
    intro k
    obtain ⟨k', v⟩ := p
    simp only [List.map_cons, List.lookup]
    cases k == k' with
    | true => rfl
    | false => exact ih k

lemma lookup_cleanMeta (m : List (String × Val)) (k : String) :
    List.lookup k (cleanMeta m) = (List.lookup k m).map cleanVal :=
  lookup_map_val cleanVal m k

/-- A pair found in `dput m k v` is either the inserted pair or one of the
original pairs. -/
lemma mem_dput {m : List (String × Val)} {k k' : String} {v v' : Val}
    (h : (k', v') ∈ dput m k v) : (k' = k ∧ v' = v) ∨ (k', v') ∈ m := by
  unfold dput at h
  by_cases ha : m.any (fun p => p.1 == k) = true
  · rw [if_pos ha] at h
    obtain ⟨p, hp, he⟩ := List.mem_map.mp h
    by_cases hk : (p.1 == k) = true
    · rw [if_pos hk] at he
      injection he with h1 h2
      exact Or.inl ⟨h1.symm, h2.symm⟩
    · rw [if_neg hk] at he
      exact Or.inr (he ▸ hp)
  · rw [if_neg ha] at h
    rcases List.mem_append.mp h with hm | hm
    · exact Or.inr hm
    · simp only [List.mem_singleton] at hm
      injection hm with h1 h2
      exact Or.inl ⟨h1, h2⟩

lemma processField_skip_sourcefile (md nm : List (String × Val))
    (y h : Option String) (acc : List (String × Val)) (k : String) (dv : Val)
    (hk : (k == "SourceFile") = true) :
    processField md nm y h acc k dv = .ok acc := by
  simp [processField, hk]

lemma processField_nonobj (md nm : List (String × Val)) (y h : Option String)
    (acc : List (String × Val)) (k : String) (dv : Val)
    (hk : (k == "SourceFile") = false) (hobj : isObjVal dv = false) :
    processField md nm y h acc k dv
      = .ok (if isEmptyCurOpt (unwrapSingle (List.lookup (normKey k) nm)) then
          dput acc k (scalarListStaged y h dv)
        else acc) := by
  by_cases hc : isEmptyCurOpt (unwrapSingle (List.lookup (normKey k) nm)) = true
  · cases dv <;> simp_all [processField, isObjVal]
  · cases dv <;> simp_all [processField, isObjVal]

lemma processField_obj (md nm : List (String × Val)) (y h : Option String)
    (acc : List (String × Val)) (k : String) (subs stu : List (String × Val))
    (hk : (k == "SourceFile") = false)
    (hcs : computeStructUpdate (resolveExistingStruct md k) y h subs [] = .ok stu) :
    processField md nm y h acc k (.vobj subs)
      = .ok (if stu.isEmpty then acc else dput acc k (.vobj stu)) := by
  simp [processField, hk, hcs]

lemma processField_obj_err (md nm : List (String × Val)) (y h : Option String)
    (acc : List (String × Val)) (k : String) (subs : List (String × Val)) (e : PyErr)
    (hk : (k == "SourceFile") = false)
    (hcs : computeStructUpdate (resolveExistingStruct md k) y h subs [] = .error e) :
    processField md nm y h acc k (.vobj subs) = .error e := by
  simp [processField, hk, hcs]

/-- On a dict receiver, the structured-field inner loop never raises. -/
lemma computeStructUpdate_obj_ok (es : List (String × Val)) (y h : Option String) :
    ∀ subs acc : List (String × Val),
      ∃ stu, computeStructUpdate (Val.vobj es) y h subs acc = .ok stu := by
  intro subs
  induction subs with
  | nil => intro acc; exact ⟨acc, rfl⟩
  | cons p rest ih =>
    intro acc
    obtain ⟨sk, sv⟩ := p
    simp only [computeStructUpdate, pyDictGet]
    exact ih _

/-- When every template sub-field already has a non-empty current
sub-value, the structured-field inner loop stages nothing. -/
lemma computeStructUpdate_all_full (ex : Val) (y h : Option String) :
    ∀ subs : List (String × Val),
      (∀ sk sv, (sk, sv) ∈ subs →
        ∃ csv, pyDictGet ex sk = .ok (some csv) ∧ isEmptyCurOpt (some csv) = false) →
      ∀ acc, computeStructUpdate ex y h subs acc = .ok acc := by
  intro subs
  induction subs with
  | nil => intro _ acc; rfl
  | cons p rest ih =>
    intro hs acc
    obtain ⟨sk, sv⟩ := p
    obtain ⟨csv, hg, hne⟩ := hs sk sv (by simp)
    simp only [computeStructUpdate, hg, hne, Bool.false_eq_true, if_false]
    exact ih (fun sk' sv' hm => hs sk' sv' (by simp [hm])) acc

/-- Placeholder-free current metadata is left unchanged by cleaning. -/
lemma cleanMeta_id (m : List (String × Val))
    (hm : ∀ p ∈ m, ∀ s : String, p.2 = Val.vstr s →
      (strContains s "{subdir_text}" || strContains s "{year}") = false) :
    cleanMeta m = m := by
  induction m with
  | nil => rfl
  | cons p rest ih =>
    obtain ⟨k, v⟩ := p
    simp only [cleanMeta, List.map_cons] at ih ⊢
    have hv : cleanVal v = v := by
      cases v with
      | vstr s =>
        have hc := hm (k, .vstr s) (by simp) s rfl
        simp [cleanVal, hc]
      | vnull => rfl
      | vnum n => rfl
      | vlist items => rfl
      | vobj fields => rfl
    rw [hv, ih (fun p hp s hs => hm p (by simp [hp]) s hs)]

/-- The spec's wording for the handling of one list item (§4.2, compared
against the `foldr` loop of the source): a non-string item is kept
verbatim, a string item whose substitution leaves no placeholder is kept
substituted, and a string item with a remaining placeholder is dropped. -/
def specListItemSubst (year headline : Option String) (item : Val) : Option Val :=
  match substVal year headline item with
  | .vstr s => if noPlaceholders (.vstr s) then some (.vstr s) else none
  | _ => some item

lemma filterMap_as_foldr (f : Val → Option Val) :
    ∀ l : List Val,
      l.filterMap f
        = l.foldr (fun item acc =>
            match f item with
            | some b => b :: acc
            | none => acc) [] := by
  intro l
  induction l with
  | nil => rfl
  | cons a l ih =>
    cases hf : f a with
    | none => simp only [List.filterMap_cons, hf, List.foldr_cons, ih]
    | some b => simp only [List.filterMap_cons, hf, List.foldr_cons, ih]

/-- The item-wise list substitution written with `foldr` in the embedding
equals its `filterMap` description from the spec. -/
lemma scalarListStaged_vlist (y h : Option String) (items : List Val) :
    scalarListStaged y h (.vlist items)
      = .vlist (items.filterMap (specListItemSubst y h)) := by
  simp only [scalarListStaged]
  congr 1
  rw [filterMap_as_foldr]
  apply List.foldr_ext
  intro item _ acc
  cases item with
  | vstr s =>
    by_cases hp : noPlaceholders (.vstr (substStr y h s)) = true
    · simp [specListItemSubst, substVal, hp]
    · simp [specListItemSubst, substVal, hp]
  | vnull => simp [specListItemSubst, substVal, noPlaceholders]
  | vnum n => simp [specListItemSubst, substVal, noPlaceholders]
  | vlist l => simp [specListItemSubst, substVal, noPlaceholders]
  | vobj fields => simp [specListItemSubst, substVal, noPlaceholders]

/-- The template loop never raises when every non-empty structured
template field (other than `SourceFile`) resolves its existing value to a
dict. -/
lemma updateLoop_ok (md nm : List (String × Val)) (y h : Option String) :
    ∀ tmpl : List (String × Val),
      (∀ k subs, (k, Val.vobj subs) ∈ tmpl → subs ≠ [] → (k == "SourceFile") = false →
        ∃ es, resolveExistingStruct md k = Val.vobj es) →
      ∀ acc, ∃ patch, updateLoop md nm y h tmpl acc = .ok patch := by
  intro tmpl
  induction tmpl with
  | nil => intro _ acc; exact ⟨acc, rfl⟩
  | cons p rest ih =>
    intro hyp acc
    obtain ⟨k, dv⟩ := p
    have hrest : ∀ k' subs', (k', Val.vobj subs') ∈ rest → subs' ≠ [] →
        (k' == "SourceFile") = false → ∃ es, resolveExistingStruct md k' = Val.vobj es :=
      fun k' subs' hm => hyp k' subs' (List.mem_cons_of_mem _ hm)
    by_cases hk : (k == "SourceFile") = true
    · simp only [updateLoop, processField_skip_sourcefile md nm y h acc k dv hk]
      exact ih hrest acc
    · have hk' : (k == "SourceFile") = false := by simpa using hk
      cases dv with
      | vobj subs =>
        cases subs with
        | nil =>
          have hcs : computeStructUpdate (resolveExistingStruct md k) y h [] [] = .ok [] := rfl
          simp only [updateLoop, processField_obj md nm y h acc k [] [] hk' hcs,
            List.isEmpty_nil, if_true]
          exact ih hrest acc
        | cons s0 subs' =>
          obtain ⟨es, hes⟩ := hyp k (s0 :: subs') (by simp) (by simp) hk'
          obtain ⟨stu, hstu⟩ := computeStructUpdate_obj_ok es y h (s0 :: subs') []
          rw [← hes] at hstu
          simp only [updateLoop, processField_obj md nm y h acc k (s0 :: subs') stu hk' hstu]
          exact ih hrest _
      | vnull =>
        simp only [updateLoop, processField_nonobj md nm y h acc k .vnull hk' rfl]
        exact ih hrest _
      | vstr s =>
        simp only [updateLoop, processField_nonobj md nm y h acc k (.vstr s) hk' rfl]
        exact ih hrest _
      | vnum n =>
        simp only [updateLoop, processField_nonobj md nm y h acc k (.vnum n) hk' rfl]
        exact ih hrest _
      | vlist items =>
        simp only [updateLoop, processField_nonobj md nm y h acc k (.vlist items) hk' rfl]
        exact ih hrest _

/-- Every pair reaching the `updates` dict through the template loop is
either a structured update or keyed by a field whose current value (by
normalized lookup, single-element lists unwrapped) is missing or empty. -/
lemma updateLoop_mem (md nm : List (String × Val)) (y h : Option String) :
    ∀ tmpl acc patch : List (String × Val),
      updateLoop md nm y h tmpl acc = .ok patch →
      (∀ p ∈ acc, isObjVal p.2 = true ∨
        isEmptyCurOpt (unwrapSingle (List.lookup (normKey p.1) nm)) = true) →
      ∀ p ∈ patch, isObjVal p.2 = true ∨
        isEmptyCurOpt (unwrapSingle (List.lookup (normKey p.1) nm)) = true := by
  intro tmpl
  induction tmpl with
  | nil =>
    intro acc patch hloop hacc
    injection hloop with hloop
    exact hloop ▸ hacc
  | cons q rest ih =>
    intro acc patch hloop hacc
    obtain ⟨k, dv⟩ := q
    cases hpf : processField md nm y h acc k dv with
    | error e =>
      rw [show updateLoop md nm y h ((k, dv) :: rest) acc
          = match processField md nm y h acc k dv with
            | .error e => .error e
            | .ok acc' => updateLoop md nm y h rest acc' from rfl, hpf] at hloop
      cases hloop
    | ok acc' =>
      rw [show updateLoop md nm y h ((k, dv) :: rest) acc
          = match processField md nm y h acc k dv with
            | .error e => .error e
            | .ok acc' => updateLoop md nm y h rest acc' from rfl, hpf] at hloop
      apply ih acc' patch hloop
      by_cases hk : (k == "SourceFile") = true
      · rw [processField_skip_sourcefile md nm y h acc k dv hk] at hpf
        injection hpf with hpf
        exact hpf ▸ hacc
      · have hk' : (k == "SourceFile") = false := by simpa using hk
        cases dv with
        | vobj subs =>
          cases hcs : computeStructUpdate (resolveExistingStruct md k) y h subs [] with
          | error e =>
            rw [processField_obj_err md nm y h acc k subs e hk' hcs] at hpf
            cases hpf
          | ok stu =>
            rw [processField_obj md nm y h acc k subs stu hk' hcs] at hpf
            injection hpf with hpf
            subst hpf
            by_cases hstu : stu.isEmpty = true
            · rw [if_pos hstu]; exact hacc
            · rw [if_neg hstu]
              intro p hp
              obtain ⟨pk, pv⟩ := p
              rcases mem_dput hp with ⟨h1, h2⟩ | hold
              · subst h1; subst h2; exact Or.inl rfl
              · exact hacc _ hold
        | vnull =>
          rw [processField_nonobj md nm y h acc k .vnull hk' rfl] at hpf
          injection hpf with hpf
          subst hpf
          by_cases hc : isEmptyCurOpt (unwrapSingle (List.lookup (normKey k) nm)) = true
          · rw [if_pos hc]
            intro p hp
            obtain ⟨pk, pv⟩ := p
            rcases mem_dput hp with ⟨h1, h2⟩ | hold
            · subst h1; exact Or.inr hc
            · exact hacc _ hold
          · rw [if_neg hc]; exact hacc
        | vstr s =>
          rw [processField_nonobj md nm y h acc k (.vstr s) hk' rfl] at hpf
          injection hpf with hpf
          subst hpf
          by_cases hc : isEmptyCurOpt (unwrapSingle (List.lookup (normKey k) nm)) = true
          · rw [if_pos hc]
            intro p hp
            obtain ⟨pk, pv⟩ := p
            rcases mem_dput hp with ⟨h1, h2⟩ | hold
            · subst h1; exact Or.inr hc
            · exact hacc _ hold
          · rw [if_neg hc]; exact hacc
        | vnum n =>
          rw [processField_nonobj md nm y h acc k (.vnum n) hk' rfl] at hpf
          injection hpf with hpf
          subst hpf
          by_cases hc : isEmptyCurOpt (unwrapSingle (List.lookup (normKey k) nm)) = true
          · rw [if_pos hc]
            intro p hp
            obtain ⟨pk, pv⟩ := p
            rcases mem_dput hp with ⟨h1, h2⟩ | hold
            · subst h1; exact Or.inr hc
            · exact hacc _ hold
          · rw [if_neg hc]; exact hacc
        | vlist items =>
          rw [processField_nonobj md nm y h acc k (.vlist items) hk' rfl] at hpf
          injection hpf with hpf
          subst hpf
          by_cases hc : isEmptyCurOpt (unwrapSingle (List.lookup (normKey k) nm)) = true
          · rw [if_pos hc]
            intro p hp
            obtain ⟨pk, pv⟩ := p
            rcases mem_dput hp with ⟨h1, h2⟩ | hold
            · subst h1; exact Or.inr hc
            · exact hacc _ hold
          · rw [if_neg hc]; exact hacc

/-- When every template field is already satisfied (non-`SourceFile`
fields have a non-empty current value; each structured sub-field has a
non-empty current sub-value), the template loop stages nothing. -/
lemma updateLoop_already_full (md nm : List (String × Val)) (y h : Option String) :
    ∀ tmpl : List (String × Val),
      (∀ k dv, (k, dv) ∈ tmpl → (k == "SourceFile") = false →
        (match dv with
         | Val.vobj subs => ∀ sk sv, (sk, sv) ∈ subs →
             ∃ csv, pyDictGet (resolveExistingStruct md k) sk = .ok (some csv) ∧
               isEmptyCurOpt (some csv) = false
         | _ => isEmptyCurOpt (unwrapSingle (List.lookup (normKey k) nm)) = false)) →
      ∀ acc, updateLoop md nm y h tmpl acc = .ok acc := by
  intro tmpl
  induction tmpl with
  | nil => intro _ acc; rfl
  | cons q rest ih =>
    intro hfull acc
    obtain ⟨k, dv⟩ := q
    have hrest : ∀ k' dv', (k', dv') ∈ rest → (k' == "SourceFile") = false →
        (match dv' with
         | Val.vobj subs => ∀ sk sv, (sk, sv) ∈ subs →
             ∃ csv, pyDictGet (resolveExistingStruct md k') sk = .ok (some csv) ∧
               isEmptyCurOpt (some csv) = false
         | _ => isEmptyCurOpt (unwrapSingle (List.lookup (normKey k') nm)) = false) :=
      fun k' dv' hm => hfull k' dv' (by simp [hm])
    by_cases hk : (k == "SourceFile") = true
    · simp only [updateLoop, processField_skip_sourcefile md nm y h acc k dv hk]
      exact ih hrest acc
    · have hk' : (k == "SourceFile") = false := by simpa using hk
      have hh := hfull k dv (by simp) hk'
      cases dv with
      | vobj subs =>
        have hcs : computeStructUpdate (resolveExistingStruct md k) y h subs [] = .ok [] :=
          computeStructUpdate_all_full _ y h subs hh []
        simp only [updateLoop, processField_obj md nm y h acc k subs [] hk' hcs,
          List.isEmpty_nil, if_true]
        exact ih hrest acc
      | vnull =>
        have hh' : isEmptyCurOpt (unwrapSingle (List.lookup (normKey k) nm)) = false := hh
        simp only [updateLoop, processField_nonobj md nm y h acc k .vnull hk' rfl, hh',
          Bool.false_eq_true, if_false]
        exact ih hrest acc
      | vstr s =>
        have hh' : isEmptyCurOpt (unwrapSingle (List.lookup (normKey k) nm)) = false := hh
        simp only [updateLoop, processField_nonobj md nm y h acc k (.vstr s) hk' rfl, hh',
          Bool.false_eq_true, if_false]
        exact ih hrest acc
      | vnum n =>
        have hh' : isEmptyCurOpt (unwrapSingle (List.lookup (normKey k) nm)) = false := hh
        simp only [updateLoop, processField_nonobj md nm y h acc k (.vnum n) hk' rfl, hh',
          Bool.false_eq_true, if_false]
        exact ih hrest acc
      | vlist items =>
        have hh' : isEmptyCurOpt (unwrapSingle (List.lookup (normKey k) nm)) = false := hh
        simp only [updateLoop, processField_nonobj md nm y h acc k (.vlist items) hk' rfl, hh',
          Bool.false_eq_true, if_false]
        exact ih hrest acc

/-! ## Claims about the Template Reconciler -/

/-- Claim C1, counterexample: the Reconciler does raise. With the
structured template field `Foo ↦ {a: "x"}`, a scalar current value
`Foo = "hello"` — or a current value `Foo = "{year}"` rewritten to absent
by placeholder cleaning — reaches `existing_struct.get(sub_key)` with a
non-dict receiver, raising `AttributeError` instead of degrading to an
empty substructure. -/
theorem C1_counterexample :
    compute_updates [("Foo", Val.vobj [("a", Val.vstr "x")])]
        [("Foo", Val.vstr "hello")] none none = .error .attributeError ∧
      compute_updates [("Foo", Val.vobj [("a", Val.vstr "x")])]
        [("Foo", Val.vstr "{year}")] none none = .error .attributeError :=
  ⟨rfl, rfl⟩

/-- Claim C1 (amended): the patch computation never raises provided every
structured template field other than `SourceFile` with at least one
sub-field resolves, after placeholder cleaning, to an existing value that
is a dict (an absent key resolves to the empty dict); when the resolved
existing value is a scalar or a cleaned-to-`None` value, the sub-value
lookup raises `AttributeError`. -/
theorem C1_no_raise_on_mapping_struct (tmpl m : List (String × Val))
    (y h : Option String)
    (hyp : ∀ k subs, (k, Val.vobj subs) ∈ tmpl → subs ≠ [] →
      (k == "SourceFile") = false →
      ∃ es, resolveExistingStruct (cleanMeta m) k = Val.vobj es) :
    ∃ patch, compute_updates tmpl m y h = .ok patch :=
  updateLoop_ok (cleanMeta m) (buildNormMeta (cleanMeta m)) y h tmpl hyp []

/-- Claim C1, witness: the amended no-raise theorem applied with the
structured field `Foo ↦ {a: "x"}` against empty current metadata. -/
theorem C1_witness :
    ∃ patch, compute_updates [("Foo", Val.vobj [("a", Val.vstr "x")])] [] none none
      = .ok patch :=
  C1_no_raise_on_mapping_struct _ _ none none (by
    intro k subs hm hne hk
    simp only [List.mem_singleton] at hm
    injection hm with h1 h2
    subst h1
    exact ⟨[], rfl⟩)

/-- Claim C3, counterexample: with the structured template field
`Foo ↦ {a: "x"}` and current metadata `Foo ↦ {b: "y"}`, the field `Foo`
is included in the patch even though its current value (by normalized-key
lookup, after unwrapping) is a non-empty dict — structured fields are
gated per sub-key, not by the top-level emptiness check. -/
theorem C3_counterexample :
    compute_updates [("Foo", Val.vobj [("a", Val.vstr "x")])]
        [("Foo", Val.vobj [("b", Val.vstr "y")])] none none
      = .ok [("Foo", Val.vobj [("a", Val.vstr "x")])] ∧
      isEmptyCurOpt (unwrapSingle (List.lookup (normKey "Foo")
        (buildNormMeta (cleanMeta [("Foo", Val.vobj [("b", Val.vstr "y")])])))) = false :=
  ⟨rfl, rfl⟩

/-- Claim C3 (amended): every field of a successfully computed patch is
either a structured (sub-field) update or a field whose current value —
by normalized-key lookup on the cleaned metadata, with single-element
lists unwrapped — was absent, the empty string, or the empty list. -/
theorem C3_patch_fields (tmpl m : List (String × Val)) (y h : Option String)
    (patch : List (String × Val))
    (hok : compute_updates tmpl m y h = .ok patch) :
    ∀ p ∈ patch, isObjVal p.2 = true ∨
      isEmptyCurOpt (unwrapSingle (List.lookup (normKey p.1)
        (buildNormMeta (cleanMeta m)))) = true :=
  updateLoop_mem (cleanMeta m) (buildNormMeta (cleanMeta m)) y h tmpl [] patch hok
    (by simp)

/-- Claim C3, witness: the amended theorem applied to the patch computed
for the scalar template field `Headline ↦ "x"` over empty metadata. -/
theorem C3_witness :
    isObjVal (Val.vstr "x") = true ∨
      isEmptyCurOpt (unwrapSingle (List.lookup (normKey "Headline")
        (buildNormMeta (cleanMeta [])))) = true :=
  C3_patch_fields [("Headline", Val.vstr "x")] [] none none
    [("Headline", Val.vstr "x")] rfl ("Headline", Val.vstr "x") (by simp)

/-- Claim C5: reconciling the template `Headline ↦ "{subdir_text}"`
against empty current metadata yields the patch `Headline ↦ "Canyon"`
when the headline is `Canyon`, and the patch
`Headline ↦ "{subdir_text}"` (the original template literal) when the
headline is absent. -/
theorem C5_headline_template :
    compute_updates [("Headline", Val.vstr "{subdir_text}")] [] none (some "Canyon")
        = .ok [("Headline", Val.vstr "Canyon")] ∧
      compute_updates [("Headline", Val.vstr "{subdir_text}")] [] none none
        = .ok [("Headline", Val.vstr "{subdir_text}")] :=
  ⟨rfl, rfl⟩

/-- Claim C6: placeholder cleaning rewrites every top-level string value
containing a literal placeholder to absent, and consequently a current
value equal to the literal string `"{year}"` counts as missing, making
its (non-structured, non-`SourceFile`) template field eligible for the
patch, staged with the usual scalar/list substitution. -/
theorem C6_placeholder_cleaning :
    (∀ (m : List (String × Val)) (k : String) (s : String),
      List.lookup k m = some (Val.vstr s) →
      (strContains s "{subdir_text}" || strContains s "{year}") = true →
      List.lookup k (cleanMeta m) = some Val.vnull) ∧
    (∀ (k : String) (dv : Val) (y h : Option String),
      (k == "SourceFile") = false → isObjVal dv = false →
      compute_updates [(k, dv)] [(k, Val.vstr "{year}")] y h
        = .ok [(k, scalarListStaged y h dv)]) := by
  constructor
  · intro m k s hl hc
    rw [lookup_cleanMeta, hl]
    simp [cleanVal, hc]
  · intro k dv y h hk hobj
    have hclean : cleanMeta [(k, Val.vstr "{year}")] = [(k, Val.vnull)] := rfl
    have hnorm : buildNormMeta [(k, Val.vnull)] = [(normKey k, Val.vnull)] := rfl
    show updateLoop (cleanMeta [(k, Val.vstr "{year}")])
        (buildNormMeta (cleanMeta [(k, Val.vstr "{year}")])) y h [(k, dv)] [] = _
    rw [hclean, hnorm]
    have hcur : isEmptyCurOpt (unwrapSingle
        (List.lookup (normKey k) [(normKey k, Val.vnull)])) = true := by
      simp [List.lookup, unwrapSingle, isEmptyCurOpt]
    simp only [updateLoop,
      processField_nonobj [(k, Val.vnull)] [(normKey k, Val.vnull)] y h [] k dv hk hobj,
      hcur, if_true]
    simp [dput]

/-- Claim C6, witness: both parts at concrete inputs — the cleaning of a
stored `"{year}"` value, and the eligibility of the field `Headline` whose
current value is the literal `"{year}"`. -/
theorem C6_witness :
    List.lookup "A" (cleanMeta [("A", Val.vstr "{year}")]) = some Val.vnull ∧
      compute_updates [("Headline", Val.vstr "x")] [("Headline", Val.vstr "{year}")]
        none none = .ok [("Headline", scalarListStaged none none (Val.vstr "x"))] :=
  ⟨C6_placeholder_cleaning.1 [("A", Val.vstr "{year}")] "A" "{year}" (by simp [List.lookup])
      (by decide),
    C6_placeholder_cleaning.2 "Headline" (Val.vstr "x") none none (by decide) rfl⟩

/-- Claim C7: a qualifying list-valued template field (non-`SourceFile`,
current value missing/empty) stages the item-wise substitution of the
list — non-string items kept verbatim, placeholder-free substituted
strings kept, strings with a remaining placeholder dropped — and the
resulting list is staged into the patch unconditionally, even when
empty. -/
theorem C7_list_substitution (metadata normMeta updates : List (String × Val))
    (y h : Option String) (k : String) (items : List Val)
    (hk : (k == "SourceFile") = false)
    (hcur : isEmptyCurOpt (unwrapSingle (List.lookup (normKey k) normMeta)) = true) :
    processField metadata normMeta y h updates k (.vlist items)
      = .ok (dput updates k (.vlist (items.filterMap (specListItemSubst y h)))) := by
  rw [processField_nonobj metadata normMeta y h updates k (.vlist items) hk rfl,
    if_pos hcur, scalarListStaged_vlist]

/-- Claim C7, witness: the list field `Keywords` with one resolvable
placeholder, one unresolvable placeholder, and one non-string item. -/
theorem C7_witness :
    processField [] [] (some "2006") none [] "Keywords"
        (.vlist [Val.vstr "{year}", Val.vstr "{subdir_text}", Val.vnum 5])
      = .ok [("Keywords", Val.vlist [Val.vstr "2006", Val.vnum 5])] :=
  (C7_list_substitution [] [] [] (some "2006") none "Keywords"
      [Val.vstr "{year}", Val.vstr "{subdir_text}", Val.vnum 5] (by decide) rfl).trans
    (by rfl)

/-- Claim C8: idempotence of reconciliation — when no top-level current
value contains placeholder text, every non-`SourceFile` scalar/list
template field has a non-empty current value, and every sub-field of
every structured template field has a non-empty current sub-value, the
computed patch is empty. -/
theorem C8_idempotent (tmpl m : List (String × Val)) (y h : Option String)
    (hclean : ∀ p ∈ m, ∀ s : String, p.2 = Val.vstr s →
      (strContains s "{subdir_text}" || strContains s "{year}") = false)
    (hfull : ∀ k dv, (k, dv) ∈ tmpl → (k == "SourceFile") = false →
      (match dv with
       | Val.vobj subs => ∀ sk sv, (sk, sv) ∈ subs →
           ∃ csv, pyDictGet (resolveExistingStruct m k) sk = .ok (some csv) ∧
             isEmptyCurOpt (some csv) = false
       | _ => isEmptyCurOpt (unwrapSingle (List.lookup (normKey k)
           (buildNormMeta m))) = false)) :
    compute_updates tmpl m y h = .ok [] := by
  have hid : cleanMeta m = m := cleanMeta_id m hclean
  show updateLoop (cleanMeta m) (buildNormMeta (cleanMeta m)) y h tmpl [] = .ok []
  rw [hid]
  exact updateLoop_already_full m (buildNormMeta m) y h tmpl hfull []

/-- Claim C8, witness: a template with a scalar field and a structured
field, both already satisfied by the current metadata, yields the empty
patch. -/
theorem C8_witness :
    compute_updates
        [("Headline", Val.vstr "{subdir_text}"),
         ("Loc", Val.vobj [("City", Val.vstr "{subdir_text}")])]
        [("Headline", Val.vstr "Canyon"), ("Loc", Val.vobj [("City", Val.vstr "Vail")])]
        none (some "Canyon")
      = .ok [] := by
  apply C8_idempotent
  · intro p hp s hs
    simp only [List.mem_cons] at hp
    rcases hp with hp | hp | hp
    · subst hp
      injection hs with hs
      subst hs
      decide
    · subst hp
      cases hs
    · cases hp
  · intro k dv hm hk
    simp only [List.mem_cons] at hm
    rcases hm with hm | hm | hm
    · injection hm with h1 h2
      subst h1
      subst h2
      decide
    · injection hm with h1 h2
      subst h1
      subst h2
      intro sk sv hsk
      simp only [List.mem_cons] at hsk
      rcases hsk with hsk | hsk
      · injection hsk with h3 h4
        subst h3
        exact ⟨Val.vstr "Vail", rfl, rfl⟩
      · cases hsk
    · cases hm

/-- Claim C10: placeholder cleaning does not recurse into structured
values — a dict-valued current value is kept unchanged, so a nested
string sub-value containing `{year}` or `{subdir_text}` survives
cleaning, counts as non-empty, and blocks its sub-key (hence the whole
single-sub-field structured field) from being staged. -/
theorem C10_no_recursive_cleaning :
    (∀ fields : List (String × Val), cleanVal (Val.vobj fields) = Val.vobj fields) ∧
    (∀ (k sk : String) (s : String) (sv : Val) (y h : Option String),
      (k == "SourceFile") = false →
      (strContains s "{year}" || strContains s "{subdir_text}") = true →
      compute_updates [(k, Val.vobj [(sk, sv)])] [(k, Val.vobj [(sk, Val.vstr s)])] y h
        = .ok []) := by
  constructor
  · intro fields; rfl
  · intro k sk s sv y h hk hc
    have hs_ne : (s == "") = false := by
      cases hb : s == "" with
      | false => rfl
      | true =>
        have := eq_of_beq hb
        subst this
        rw [show strContains "" "{year}" = false from rfl,
          show strContains "" "{subdir_text}" = false from rfl] at hc
        cases hc
    have hclean : cleanMeta [(k, Val.vobj [(sk, Val.vstr s)])]
        = [(k, Val.vobj [(sk, Val.vstr s)])] := rfl
    have hres : resolveExistingStruct [(k, Val.vobj [(sk, Val.vstr s)])] k
        = Val.vobj [(sk, Val.vstr s)] := by
      simp [resolveExistingStruct, List.lookup]
    have hcs : computeStructUpdate
        (resolveExistingStruct [(k, Val.vobj [(sk, Val.vstr s)])] k) y h [(sk, sv)] []
        = .ok [] := by
      rw [hres]
      simp only [computeStructUpdate, pyDictGet, List.lookup, beq_self_eq_true]
      simp [isEmptyCurOpt, hs_ne]
    show updateLoop (cleanMeta [(k, Val.vobj [(sk, Val.vstr s)])])
        (buildNormMeta (cleanMeta [(k, Val.vobj [(sk, Val.vstr s)])])) y h
        [(k, Val.vobj [(sk, sv)])] [] = .ok []
    rw [hclean]
    simp only [updateLoop,
      processField_obj [(k, Val.vobj [(sk, Val.vstr s)])]
        (buildNormMeta [(k, Val.vobj [(sk, Val.vstr s)])]) y h [] k [(sk, sv)] [] hk hcs,
      List.isEmpty_nil, if_true]

/-- Claim C10, witness: both parts at concrete inputs — a dict value
survives cleaning unchanged, and a nested `"{year}"` sub-value blocks its
sub-key from being staged. -/
theorem C10_witness :
    cleanVal (Val.vobj [("a", Val.vstr "{year}")]) = Val.vobj [("a", Val.vstr "{year}")] ∧
      compute_updates [("Foo", Val.vobj [("a", Val.vstr "x")])]
        [("Foo", Val.vobj [("a", Val.vstr "{year}")])] none none = .ok [] :=
  ⟨C10_no_recursive_cleaning.1 [("a", Val.vstr "{year}")],
    C10_no_recursive_cleaning.2 "Foo" "a" "{year}" (Val.vstr "x") none none (by decide)
      (by decide)⟩

end ExifHeadliner
